import Mathlib

/-!
# posix_spawn_bun

A shallow embedding of `src/bun.js/bindings/bun-spawn.cpp`: the launch routine
`posix_spawn_bun` with the lambdas it defines (`childFailed`, `startChild`)
and its parent resolution, over an explicit model of the descriptor table and
of the answers the operating system gives.

The process state is passed explicitly.  Every system call appends an event to
the trace of the process that issued it, so that statements such as
"`execve` is never called" or "`wait4` is called once" are statements about a
list.  The descriptor calls `close`, `dup2`, `open` and `close_range` act on
the table as their Linux manual pages say (the file is compiled under
`OS(LINUX)`), and `sigprocmask` never blocks `SIGKILL` and `SIGSTOP`; the
outcome of the other calls (`vfork`, `sigaction`, `setsid`, `chdir`, the file
system's part of `open`, an error reported by `close` on an open descriptor,
`execve`) is a parameter, `Env`.
C `int`s are `Int`; the one place where a conversion could wrap, the
`unsigned int` argument of `close_range`, is taken modulo `2^32`.
-/

namespace BunSpawn

/-! ## Data model -/

/-- Signal sets, as bit masks. -/
abbrev SigSet := Nat

/-- The tag of a file action (`enum FileActionType : uint8_t`). -/
inductive FileActionType
  | None
  | Close
  | Dup2
  | Open
deriving DecidableEq, Repr

/-- One file action (`bun_spawn_request_file_action_t`); `fds0`, `fds1` are
`fds[0]`, `fds[1]`. -/
structure bun_spawn_request_file_action_t where
  type : FileActionType
  path : String
  fds0 : Int
  fds1 : Int
  flags : Int
  mode : Int
deriving DecidableEq, Repr

/-- The request (`bun_spawn_request_t`); a null `chdir` is `none`, and the
action list is the array `actions.ptr[0 .. actions.len)`. -/
structure bun_spawn_request_t where
  chdir : Option String
  detached : Bool
  actions : List bun_spawn_request_file_action_t
deriving Repr

/-- An entry of a descriptor table: the open file it refers to and its
close-on-exec flag. -/
structure FdEntry where
  file : Nat
  cloexec : Bool
deriving DecidableEq, Repr

/-- System calls, in the order a process issued them.  `action i` is not a
system call: it marks that the body of the replay loop was entered for
index `i`.  `store_pid v` is the assignment `*pid = v`. -/
inductive Event
  | sigfillset
  | sigprocmask (set : SigSet)
  | pthread_setcancelstate (state : Int)
  | vfork
  | sigaction (signo : Nat)
  | setsid
  | chdir (path : String)
  | action (i : Nat)
  | close (fd : Int)
  | dup2 (oldfd newfd : Int)
  | sysOpen (path : String) (flags mode : Int)
  | close_range (first : Nat)
  | execve (path : Option String) (argv envp : List String)
  | exit (code : Int)
  | wait4 (pid : Int)
  | store_pid (v : Int)
deriving DecidableEq, Repr

/-- The state of one process (its calling thread), with the locals of
`posix_spawn_bun` that the code reads back: `status`, `res`, `oldmask`, `cs`
and `current_max_fd`.  After `vfork` the child starts from a copy; its
descriptor table and signal mask are its own, the locals and `errno` are
memory it shares with the parent. -/
structure Proc where
  fds : Int → Option FdEntry
  sigmask : SigSet
  cancelstate : Int
  errno : Int
  status : Int
  res : Int
  oldmask : SigSet
  cs : Int
  current_max_fd : Int
  trace : List Event

/-- The set `s` without the signal whose bit is `k` (signal `k + 1`). -/
def clearSignal (s : SigSet) (k : Nat) : SigSet :=
  if (s / 2 ^ k) % 2 = 1 then s - 2 ^ k else s

/-- The part of a set that a thread can block: `sigprocmask` silently leaves
`SIGKILL` (9) and `SIGSTOP` (19) unblocked. -/
def blockable (s : SigSet) : SigSet :=
  clearSignal (clearSignal s 8) 18

/-- What the operating system and the C library answer during one call:
the caller's process state at entry and the outcome of every call whose
result is not determined by the descriptor table.  `nofile` is the
descriptor limit; descriptors are C `int`s, hence `nofile_int`.  `vfork` is
the value `vfork()` returns in the parent (`-1` on failure, with
`vforkErrno`), never `0`.  An `Option Int` answer is `none` on success and
`some e` when the call fails with `errno = e`; `closeErrno i fd` is the
answer of the `close(fd)` issued at loop index `i` on an open descriptor.
The mask at entry is one a thread can have, hence `sigmask_ok`; `fillset` is
the set `sigfillset` writes. -/
structure Env where
  fds : Int → Option FdEntry
  nofile : Nat
  nofile_int : nofile ≤ 2147483647
  sigmask : SigSet
  sigmask_ok : blockable sigmask = sigmask
  cancelstate : Int
  errno : Int
  environ : List String
  fillset : SigSet
  vfork : Int
  vfork_parent : vfork ≠ 0
  vforkErrno : Int
  sigactionErrno : Nat → Option Int
  setsidErrno : Option Int
  chdirErrno : String → Option Int
  openAnswer : Nat → String → Int → Int → Except Int Nat
  closeErrno : Nat → Int → Option Int
  execveErrno : Option String → List String → List String → Option Int

/-- How the child path ends: `_exit(code)`, a successful `execve` (with the
state in which it was called), or `__builtin_unreachable()`. -/
inductive Outcome
  | exited (code : Int) (p : Proc)
  | execed (p : Proc)
  | unreachable

/-- Control after one step of the child: go on, or the child is over. -/
inductive Flow
  | next (p : Proc)
  | stop (o : Outcome)

/-- What the caller observes when `posix_spawn_bun` returns: the return
value, the content of its pid slot (`none` when `pid` is a null pointer),
the parent thread's final state, its state when `vfork` was called, and the
child's run when a child was created. -/
structure Result where
  ret : Int
  pid : Option Int
  parent : Proc
  atVfork : Proc
  child : Option Outcome

/-! ## Constants of the platform headers -/

/-- Number of signals plus one, `NSIG` of `<signal.h>` on Linux. -/
def NSIG : Nat := 65

/-- Error code `EBADF`. -/
def EBADF : Int := 9

/-- Error code `EMFILE`. -/
def EMFILE : Int := 24

/-- Open flag `O_CLOEXEC` (octal 02000000). -/
def O_CLOEXEC : Int := 524288

/-- Cancellation state `PTHREAD_CANCEL_DISABLE`. -/
def PTHREAD_CANCEL_DISABLE : Int := 1

/-! ## System calls -/

/-- Append an event to the trace. -/
def log (e : Event) (p : Proc) : Proc :=
  { p with trace := p.trace ++ [e] }

/-- Descriptor `fd` is open: in range and present in the table. -/
def fdOpen (nofile : Nat) (fds : Int → Option FdEntry) (fd : Int) : Bool :=
  decide (0 ≤ fd) && decide (fd < (nofile : Int)) && (fds fd).isSome

/-- The lowest descriptor below the limit that is not in use. -/
def lowestUnused (nofile : Nat) (fds : Int → Option FdEntry) : Option Nat :=
  (List.range nofile).find? (fun n => (fds (n : Int)).isNone)

/-- Conversion of an `int` argument to `unsigned int`. -/
def toUnsigned (x : Int) : Nat :=
  (x % 4294967296).toNat

/-- Whether `O_CLOEXEC` is among the open flags. -/
def hasCloexec (flags : Int) : Bool :=
  decide ((flags / O_CLOEXEC) % 2 = 1)

/-- The table `fds` with the entry of `fd` replaced by `v`. -/
def setFd (fds : Int → Option FdEntry) (fd : Int) (v : Option FdEntry) :
    Int → Option FdEntry :=
  fun x => if x = fd then v else fds x

/-- An entry with the close-on-exec flag off, as `dup2` installs it. -/
def dupEntry (e : FdEntry) : FdEntry :=
  { e with cloexec := false }

/-- The call `close(fd)` issued at loop index `i`, as close(2) documents it:
it fails with `EBADF` when `fd` is not open; an open descriptor is released
in every case, and the call returns `0`, or `-1` with the error the system
answers (`EINTR`, `EIO`, ...). -/
def sys_close (w : Env) (i : Nat) (fd : Int) (p : Proc) : Int × Proc :=
  let p := log (.close fd) p
  if fdOpen w.nofile p.fds fd then
    let p := { p with fds := setFd p.fds fd none }
    match w.closeErrno i fd with
    | none => (0, p)
    | some e => (-1, { p with errno := e })
  else
    (-1, { p with errno := EBADF })

/-- The call `dup2(oldfd, newfd)` as dup2(2) documents it: it fails with
`EBADF` when `oldfd` is not open or `newfd` is out of range; when `oldfd` is
valid and `newfd` has the same value it does nothing and returns `newfd`;
otherwise it makes `newfd` refer to the file of `oldfd`, silently closing
what `newfd` referred to, with the close-on-exec flag of `newfd` off. -/
def sys_dup2 (w : Env) (oldfd newfd : Int) (p : Proc) : Int × Proc :=
  let p := log (.dup2 oldfd newfd) p
  if fdOpen w.nofile p.fds oldfd = false then
    (-1, { p with errno := EBADF })
  else if newfd < 0 ∨ (w.nofile : Int) ≤ newfd then
    (-1, { p with errno := EBADF })
  else if newfd = oldfd then
    (newfd, p)
  else
    (newfd, { p with fds := setFd p.fds newfd ((p.fds oldfd).map dupEntry) })

/-- The call `open(path, flags, mode)` issued at loop index `i`: fails with
`EMFILE` when no descriptor is free, with the error the file system answers
when the file cannot be opened, and otherwise installs the file at the lowest
unused descriptor and returns it. -/
def sys_open (w : Env) (i : Nat) (path : String) (flags mode : Int) (p : Proc) :
    Int × Proc :=
  let p := log (.sysOpen path flags mode) p
  match lowestUnused w.nofile p.fds with
  | none => (-1, { p with errno := EMFILE })
  | some n =>
    match w.openAnswer i path flags mode with
    | .error e => (-1, { p with errno := e })
    | .ok f =>
      ((n : Int), { p with fds := setFd p.fds (n : Int) (some ⟨f, hasCloexec flags⟩) })

/-- The helper `close_range(first)`, that is
`syscall(__NR_close_range, first, ~0U, 0)`: closes every descriptor from
`first` up.  Its result is ignored by both callers. -/
def close_range (first : Nat) (p : Proc) : Proc :=
  let p := log (.close_range first) p
  { p with fds := fun x => if (first : Int) ≤ x then none else p.fds x }

/-- The call `sigaction(signo, &sa, 0)`; its result is ignored. -/
def sys_sigaction (w : Env) (signo : Nat) (p : Proc) : Proc :=
  let p := log (.sigaction signo) p
  match w.sigactionErrno signo with
  | none => p
  | some e => { p with errno := e }

/-- The call `setsid()`; its result is ignored. -/
def sys_setsid (w : Env) (p : Proc) : Proc :=
  let p := log .setsid p
  match w.setsidErrno with
  | none => p
  | some e => { p with errno := e }

/-- The call `chdir(path)`. -/
def sys_chdir (w : Env) (path : String) (p : Proc) : Int × Proc :=
  let p := log (.chdir path) p
  match w.chdirErrno path with
  | none => (0, p)
  | some e => (-1, { p with errno := e })

/-- The call `sigprocmask(SIG_SETMASK, &set, 0)`: the thread's mask becomes
the part of `set` that can be blocked. -/
def sys_sigprocmask (set : SigSet) (p : Proc) : Proc :=
  { log (.sigprocmask set) p with sigmask := blockable set }

/-- The call `pthread_setcancelstate(state, 0)`. -/
def sys_setcancelstate (state : Int) (p : Proc) : Proc :=
  { log (.pthread_setcancelstate state) p with cancelstate := state }

/-! ## The child path -/

/-- The lambda `childFailed`: `res = errno; status = res; close_range(0);
_exit(127)`. -/
def childFailed (p : Proc) : Outcome :=
  let p := { p with res := p.errno }
  let p := { p with status := p.res }
  let p := close_range 0 p
  .exited 127 (log (.exit 127) p)

/-- The assignment `current_max_fd = std::max(current_max_fd, fd)`. -/
def trackMax (fd : Int) (p : Proc) : Proc :=
  { p with current_max_fd := max p.current_max_fd fd }

/-- The body of the replay loop for the action at index `i`. -/
def runAction (w : Env) (i : Nat) (action : bun_spawn_request_file_action_t)
    (p : Proc) : Flow :=
  match action.type with
  | .Close => .next (sys_close w i action.fds0 p).2
  | .Dup2 =>
    let d := sys_dup2 w action.fds0 action.fds1 p
    if d.1 = -1 then .stop (childFailed d.2)
    else
      let p := if action.fds0 ≠ action.fds1 then (sys_close w i action.fds0 d.2).2 else d.2
      .next (trackMax action.fds1 p)
  | .Open =>
    let o := sys_open w i action.path action.flags action.mode p
    let opened := o.1
    if opened = -1 then .stop (childFailed o.2)
    else
      let d := sys_dup2 w opened action.fds0 o.2
      if d.1 = -1 then .stop (childFailed (sys_close w i opened d.2).2)
      else
        let p := trackMax action.fds0 d.2
        let c := sys_close w i opened p
        if c.1 ≠ 0 then .stop (childFailed c.2) else .next c.2
  | .None => .stop .unreachable

/-- The replay loop `for (size_t i = ...; i < actions.len; i++)`, from
index `i` over the remaining actions. -/
def replay (w : Env) : List bun_spawn_request_file_action_t → Nat → Proc → Flow
  | [], _, p => .next p
  | a :: rest, i, p =>
    match runAction w i a (log (.action i) p) with
    | .next q => replay w rest (i + 1) q
    | .stop o => .stop o

/-- The end of `startChild`, after the loop: restore the mask, close the
descriptors above `current_max_fd`, `execve`, and `_exit(127)` when `execve`
returns. -/
def execTail (w : Env) (path : Option String) (argv : List String)
    (envp : Option (List String)) (childmask : SigSet) (p : Proc) : Outcome :=
  let p := sys_sigprocmask childmask p
  let envp := envp.getD w.environ
  let p := close_range (toUnsigned (p.current_max_fd + 1)) p
  let p := log (.execve path argv envp) p
  match w.execveErrno path argv envp with
  | none => .execed p
  | some e => .exited 127 (log (.exit 127) { p with errno := e })

/-- The loop `for (int i = 0; i < NSIG; i++) sigaction(i, &sa, 0)`. -/
def resetSignals (w : Env) (p : Proc) : Proc :=
  (List.range NSIG).foldl (fun q i => sys_sigaction w i q) p

/-- The statement `if (request->detached) setsid()`. -/
def detach (w : Env) (request : bun_spawn_request_t) (p : Proc) : Proc :=
  if request.detached then sys_setsid w p else p

/-- The statement `if (request->chdir) if (chdir(request->chdir) != 0) return
childFailed()`. -/
def enterDir (w : Env) (request : bun_spawn_request_t) (p : Proc) : Flow :=
  match request.chdir with
  | some dir =>
    let c := sys_chdir w dir p
    if c.1 ≠ 0 then .stop (childFailed c.2) else .next c.2
  | none => .next p

/-- The beginning of `startChild`, up to the replay loop: reset the signal
dispositions, `setsid()` when detached, `current_max_fd = 0`, and `chdir`
when a directory is given. -/
def childSetup (w : Env) (request : bun_spawn_request_t) (p : Proc) : Flow :=
  let p := resetSignals w p
  let p := detach w request p
  let p := { p with current_max_fd := 0 }
  enterDir w request p

/-- The lambda `startChild`: setup, replay loop, and the `execve` tail, with
`childmask = oldmask` taken at its start. -/
def startChild (w : Env) (request : bun_spawn_request_t) (path : Option String)
    (argv : List String) (envp : Option (List String)) (p : Proc) : Outcome :=
  let childmask := p.oldmask
  match childSetup w request p with
  | .stop o => o
  | .next c =>
    match replay w request.actions 0 c with
    | .stop o => o
    | .next q => execTail w path argv envp childmask q

/-! ## The whole call -/

/-- The caller's thread when `posix_spawn_bun` is entered. -/
def entry (w : Env) : Proc :=
  { fds := w.fds, sigmask := w.sigmask, cancelstate := w.cancelstate,
    errno := w.errno, status := 0, res := 0, oldmask := 0, cs := 0,
    current_max_fd := 0, trace := [] }

/-- The guard: `sigfillset`, `sigprocmask(SIG_SETMASK, &blockall, &oldmask)`,
`pthread_setcancelstate(PTHREAD_CANCEL_DISABLE, &cs)`. -/
def guard (w : Env) (p : Proc) : Proc :=
  let p := log .sigfillset p
  let blockall := w.fillset
  let p := { sys_sigprocmask blockall p with oldmask := p.sigmask }
  { sys_setcancelstate PTHREAD_CANCEL_DISABLE p with cs := p.cancelstate }

/-- The child that `vfork` creates: a copy of the caller, with a trace of
its own. -/
def childStart (g : Proc) : Proc :=
  { g with trace := [] }

/-- The state of the process a terminated child path leaves behind. -/
def Outcome.proc : Outcome → Option Proc
  | .exited _ p => some p
  | .execed p => some p
  | .unreachable => none

/-- The function `posix_spawn_bun`, as seen by its caller.  When `vfork`
creates a child, the child path (`child == 0`, `startChild`) runs to its end
before the parent resumes; the locals `status`, `res`, `oldmask`, `cs` and
`errno` are then what the child left in the shared memory.  The result is
`none` when the child runs into `__builtin_unreachable()`. -/
def posix_spawn_bun (w : Env) (pid : Option Int) (request : bun_spawn_request_t)
    (argv : List String) (envp : Option (List String)) : Option Result :=
  let g := guard w (entry w)
  let path := argv.head?
  let p := log .vfork g
  let child := w.vfork
  if child ≠ -1 then
    let o := startChild w request path argv envp (childStart g)
    match o.proc with
    | none => none
    | some c =>
      let p := { p with status := c.status, res := c.res, errno := c.errno,
                        oldmask := c.oldmask, cs := c.cs }
      let p := { p with res := p.status }
      if p.res = 0 then
        let p := if pid.isSome then log (.store_pid child) p else p
        let p := sys_setcancelstate p.cs (sys_sigprocmask p.oldmask p)
        some { ret := p.res, pid := pid.map (fun _ => child), parent := p,
               atVfork := g, child := some o }
      else
        let p := log (.wait4 child) p
        let p := sys_setcancelstate p.cs (sys_sigprocmask p.oldmask p)
        some { ret := p.res, pid := pid, parent := p, atVfork := g, child := some o }
  else
    let p := { p with errno := w.vforkErrno }
    let p := { p with res := p.errno }
    let p := sys_setcancelstate p.cs (sys_sigprocmask p.oldmask p)
    some { ret := p.res, pid := pid, parent := p, atVfork := g, child := none }

/-! ## Observations on traces -/

/-- The event is one of the descriptor calls the replay loop issues
(`close`, `dup2`, `open`). -/
def Event.isFdCall : Event → Bool
  | .close _ => true
  | .dup2 _ _ => true
  | .sysOpen _ _ _ => true
  | _ => false

/-- The event is a call of `execve`. -/
def Event.isExecve : Event → Bool
  | .execve _ _ _ => true
  | _ => false

/-- The event is a call of `wait4`. -/
def Event.isWait4 : Event → Bool
  | .wait4 _ => true
  | _ => false

/-- The event is the assignment `*pid = ...`. -/
def Event.isStorePid : Event → Bool
  | .store_pid _ => true
  | _ => false

/-- The event is a loop marker. -/
def Event.isAction : Event → Bool
  | .action _ => true
  | _ => false

/-- The event changes the signal mask or the cancellation state. -/
def Event.isGuardCall : Event → Bool
  | .sigprocmask _ => true
  | .pthread_setcancelstate _ => true
  | _ => false

/-- The lower bounds of the `close_range` calls of a trace, in order. -/
def closeRangeArgs (tr : List Event) : List Nat :=
  tr.filterMap (fun e => match e with
    | .close_range n => some n
    | _ => none)

/-- The events a child step may add when it leaves `oldmask`, `cs` and the
status cell alone: `q` comes after `p`, and every event of `q` is one of `p`
or is allowed. -/
def Steps (allowed : Event → Prop) (p q : Proc) : Prop :=
  q.oldmask = p.oldmask ∧ q.cs = p.cs ∧ q.status = p.status ∧
    ∀ e ∈ q.trace, e ∈ p.trace ∨ allowed e

/-- Events of the setup before the loop. -/
def setupEvent (e : Event) : Prop :=
  (∃ n, e = .sigaction n) ∨ e = .setsid ∨ ∃ dir, e = .chdir dir

/-- Events of the replay loop run over the indices `lo ≤ j < hi`. -/
def loopEvent (lo hi : Nat) (e : Event) : Prop :=
  e.isFdCall = true ∨ ∃ j, e = .action j ∧ lo ≤ j ∧ j < hi

/-- Events of the child before the `execve` tail and before `childFailed`:
those of the setup and those of the loop over the first `hi` indices. -/
def childEvent (hi : Nat) (e : Event) : Prop :=
  setupEvent e ∨ loopEvent 0 hi e

/-- The indices of the loop iterations a trace entered, in order. -/
def actionIndices (tr : List Event) : List Nat :=
  tr.filterMap (fun e => match e with
    | .action i => some i
    | _ => none)

/-- The descriptor table the new program starts with: `execve` closes the
descriptors whose close-on-exec flag is set. -/
def inherited (p : Proc) : Int → Option FdEntry :=
  fun fd => match p.fds fd with
    | some e => if e.cloexec then none else some e
    | none => none

/-- The greatest target of the `Dup2` (`fds[1]`) and `Open` (`fds[0]`)
actions of a list, starting from `m`. -/
def maxTarget (m : Int) : List bun_spawn_request_file_action_t → Int
  | [] => m
  | a :: rest =>
    match a.type with
    | .Dup2 => maxTarget (max m a.fds1) rest
    | .Open => maxTarget (max m a.fds0) rest
    | _ => maxTarget m rest

/-- The error code with which the action at index `i` fails in state `p`:
the `errno` of its first failing call, among `close` for `Close`, `dup2` for
`Dup2`, and `open`, `dup2`, `close` of the temporary for `Open`; `none` when
none of them fails. -/
def actionError (w : Env) (i : Nat) (a : bun_spawn_request_file_action_t) (p : Proc) :
    Option Int :=
  match a.type with
  | .Close =>
    let c := sys_close w i a.fds0 p
    if c.1 ≠ 0 then some c.2.errno else none
  | .Dup2 =>
    let d := sys_dup2 w a.fds0 a.fds1 p
    if d.1 = -1 then some d.2.errno else none
  | .Open =>
    let o := sys_open w i a.path a.flags a.mode p
    if o.1 = -1 then some o.2.errno
    else
      let d := sys_dup2 w o.1 a.fds0 o.2
      if d.1 = -1 then some d.2.errno
      else
        let c := sys_close w i o.1 d.2
        if c.1 ≠ 0 then some c.2.errno else none
  | .None => none

/-- When the `dup2` of an `Open` action fails, the `close` of the temporary
that follows it (before `childFailed`) succeeds.  True in every other
case. -/
def cleanupOk (w : Env) (i : Nat) (a : bun_spawn_request_file_action_t) (p : Proc) : Bool :=
  match a.type with
  | .Open =>
    let o := sys_open w i a.path a.flags a.mode p
    if o.1 = -1 then true
    else
      let d := sys_dup2 w o.1 a.fds0 o.2
      if d.1 = -1 then decide ((sys_close w i o.1 d.2).1 = 0) else true
  | _ => true

/-- A descriptor table with the descriptors of `l` open, each on a file of
its own and without close-on-exec. -/
def tableOf (l : List Int) : Int → Option FdEntry :=
  fun fd => if fd ∈ l then some ⟨fd.toNat, false⟩ else none

/-- An environment in which descriptors 0, 1, 2 are open, every call
succeeds, `vfork` returns the child id 4242, signals 1 and 3 are blocked at
entry, and `sigfillset` writes `0xfffffffe7fffffff` (every signal but the two
the C library keeps for itself). -/
def env0 : Env :=
  { fds := tableOf [0, 1, 2], nofile := 16, nofile_int := by decide, sigmask := 5,
    sigmask_ok := by decide, cancelstate := 0, errno := 0, environ := [],
    fillset := 18446744067267100671, vfork := 4242, vfork_parent := by decide,
    vforkErrno := 11, sigactionErrno := fun _ => none, setsidErrno := none,
    chdirErrno := fun _ => none, openAnswer := fun _ _ _ _ => .ok 100,
    closeErrno := fun _ _ => none, execveErrno := fun _ _ _ => none }

/-- The environment `env0` in which `execve` fails with `ENOENT` (2). -/
def envNoExec : Env :=
  { env0 with execveErrno := fun _ _ _ => some 2 }

/-- The environment `env0` in which `chdir` fails with `ENOENT` (2). -/
def envNoDir : Env :=
  { env0 with chdirErrno := fun _ => some 2 }

/-- The environment `env0` with descriptor 5 open as well, close-on-exec
set. -/
def envCloexec5 : Env :=
  { env0 with fds := fun fd => if fd = 5 then some ⟨55, true⟩ else tableOf [0, 1, 2] fd }

/-- The environment `env0` in which the `close` issued at loop index 1 fails
with `EIO` (5). -/
def envCloseFails : Env :=
  { env0 with closeErrno := fun i _ => if i = 1 then some 5 else none }

/-- The action `Close{fd}`. -/
def closeAction (fd : Int) : bun_spawn_request_file_action_t :=
  { type := .Close, path := "", fds0 := fd, fds1 := 0, flags := 0, mode := 0 }

/-- The action `Remap{from, to}`. -/
def dup2Action (src dst : Int) : bun_spawn_request_file_action_t :=
  { type := .Dup2, path := "", fds0 := src, fds1 := dst, flags := 0, mode := 0 }

/-- The action `OpenInto{target, "/dev/null", O_WRONLY, 0}`. -/
def openAction (target : Int) : bun_spawn_request_file_action_t :=
  { type := .Open, path := "/dev/null", fds0 := target, fds1 := 0, flags := 1, mode := 0 }

/-- An action with the tag `FileActionType::None`. -/
def noneAction : bun_spawn_request_file_action_t :=
  { type := .None, path := "", fds0 := 0, fds1 := 0, flags := 0, mode := 0 }

/-- A request with the given actions, no working directory, not detached. -/
def requestOf (acts : List bun_spawn_request_file_action_t) : bun_spawn_request_t :=
  { chdir := none, detached := false, actions := acts }

theorem Steps.refl (al : Event → Prop) (p : Proc) : Steps al p p :=
  ⟨rfl, rfl, rfl, fun _ h => Or.inl h⟩

theorem Steps.trans {al : Event → Prop} {p q r : Proc} (h1 : Steps al p q)
    (h2 : Steps al q r) : Steps al p r := by
  refine ⟨h2.1.trans h1.1, h2.2.1.trans h1.2.1, h2.2.2.1.trans h1.2.2.1, fun e he => ?_⟩
  rcases h2.2.2.2 e he with h | h
  · exact h1.2.2.2 e h
  · exact Or.inr h

theorem Steps.mono {al bl : Event → Prop} {p q : Proc} (h : Steps al p q)
    (hab : ∀ e, al e → bl e) : Steps bl p q :=
  ⟨h.1, h.2.1, h.2.2.1, fun e he => (h.2.2.2 e he).imp id (hab e)⟩

theorem steps_one (al : Event → Prop) (p q : Proc) (e : Event) (h : al e)
    (ho : q.oldmask = p.oldmask) (hc : q.cs = p.cs) (hs : q.status = p.status)
    (ht : q.trace = p.trace ++ [e]) : Steps al p q := by
  refine ⟨ho, hc, hs, fun x hx => ?_⟩
  rw [ht, List.mem_append, List.mem_singleton] at hx
  rcases hx with hx | hx
  · exact Or.inl hx
  · exact Or.inr (by rw [hx]; exact h)

theorem steps_log (al : Event → Prop) (e : Event) (p : Proc) (h : al e) :
    Steps al p (log e p) :=
  steps_one al p _ e h rfl rfl rfl rfl

theorem steps_close (al : Event → Prop) (w : Env) (i : Nat) (fd : Int) (p : Proc)
    (h : al (.close fd)) : Steps al p (sys_close w i fd p).2 := by
  apply steps_one al p _ _ h <;>
    (simp only [sys_close, log]
     split
     · split <;> rfl
     · rfl)

theorem steps_dup2 (al : Event → Prop) (w : Env) (a b : Int) (p : Proc)
    (h : al (.dup2 a b)) : Steps al p (sys_dup2 w a b p).2 := by
  apply steps_one al p _ _ h <;> (simp only [sys_dup2, log]; split_ifs <;> rfl)

theorem steps_open (al : Event → Prop) (w : Env) (i : Nat) (path : String)
    (flags mode : Int) (p : Proc) (h : al (.sysOpen path flags mode)) :
    Steps al p (sys_open w i path flags mode p).2 := by
  apply steps_one al p _ _ h <;>
    (simp only [sys_open, log]
     split
     · rfl
     · split <;> rfl)

theorem steps_sigaction (al : Event → Prop) (w : Env) (n : Nat) (p : Proc)
    (h : al (.sigaction n)) : Steps al p (sys_sigaction w n p) := by
  apply steps_one al p _ _ h <;> (simp only [sys_sigaction, log]; split <;> rfl)

theorem steps_setsid (al : Event → Prop) (w : Env) (p : Proc)
    (h : al .setsid) : Steps al p (sys_setsid w p) := by
  apply steps_one al p _ _ h <;> (simp only [sys_setsid, log]; split <;> rfl)

theorem steps_chdir (al : Event → Prop) (w : Env) (dir : String) (p : Proc)
    (h : al (.chdir dir)) : Steps al p (sys_chdir w dir p).2 := by
  apply steps_one al p _ _ h <;> (simp only [sys_chdir, log]; split <;> rfl)

theorem steps_sigactions (al : Event → Prop) (w : Env) (h : ∀ n, al (.sigaction n))
    (l : List Nat) (p : Proc) :
    Steps al p (l.foldl (fun q i => sys_sigaction w i q) p) := by
  induction l generalizing p with
  | nil => exact Steps.refl al p
  | cons n l ih => exact (steps_sigaction al w n p (h n)).trans (ih _)

theorem sigactions_fds (w : Env) (l : List Nat) (p : Proc) :
    (l.foldl (fun q i => sys_sigaction w i q) p).fds = p.fds := by
  induction l generalizing p with
  | nil => rfl
  | cons n l ih =>
    rw [List.foldl_cons, ih]
    simp only [sys_sigaction, log]; split <;> rfl

/-! ## The child path: how it ends -/

theorem childFailed_spec (p : Proc) :
    ∃ q, childFailed p = .exited 127 q ∧ q.status = p.errno ∧ q.res = p.errno ∧
      q.oldmask = p.oldmask ∧ q.cs = p.cs ∧
      q.trace = p.trace ++ [.close_range 0, .exit 127] :=
  ⟨_, rfl, rfl, rfl, rfl, rfl, by simp [close_range, log]⟩

theorem steps_trackMax (al : Event → Prop) (fd : Int) (p : Proc) :
    Steps al p (trackMax fd p) :=
  ⟨rfl, rfl, rfl, fun _ h => Or.inl h⟩

theorem runAction_next (w : Env) (i : Nat) (a : bun_spawn_request_file_action_t)
    (p q : Proc) (h : runAction w i a p = .next q) :
    Steps (fun e => e.isFdCall = true) p q := by
  unfold runAction at h
  split at h
  · injection h with h
    subst h
    exact steps_close _ w i _ p rfl
  · simp only at h
    have s1 := steps_dup2 (fun e => e.isFdCall = true) w a.fds0 a.fds1 p rfl
    split_ifs at h with h1 h2
    · injection h with h
      subst h
      exact (s1.trans (steps_close _ w i a.fds0 _ rfl)).trans (steps_trackMax _ _ _)
    · injection h with h
      subst h
      exact s1.trans (steps_trackMax _ _ _)
  · simp only at h
    have s1 := steps_open (fun e => e.isFdCall = true) w i a.path a.flags a.mode p rfl
    have s2 := steps_dup2 (fun e => e.isFdCall = true) w
      (sys_open w i a.path a.flags a.mode p).1 a.fds0
      (sys_open w i a.path a.flags a.mode p).2 rfl
    split_ifs at h with h1 h2 h3
    injection h with h
    subst h
    exact ((s1.trans s2).trans (steps_trackMax _ _ _)).trans (steps_close _ w i _ _ rfl)
  · cases h

theorem runAction_stop (w : Env) (i : Nat) (a : bun_spawn_request_file_action_t)
    (p : Proc) (o : Outcome) (h : runAction w i a p = .stop o) :
    (o = .unreachable ∧ a.type = .None) ∨
      ∃ q, Steps (fun e => e.isFdCall = true) p q ∧ o = childFailed q := by
  unfold runAction at h
  split at h
  · cases h
  · simp only at h
    split_ifs at h with h1
    injection h with h
    exact Or.inr ⟨_, steps_dup2 _ w a.fds0 a.fds1 p rfl, h.symm⟩
  · simp only at h
    have s1 := steps_open (fun e => e.isFdCall = true) w i a.path a.flags a.mode p rfl
    have s2 := steps_dup2 (fun e => e.isFdCall = true) w
      (sys_open w i a.path a.flags a.mode p).1 a.fds0
      (sys_open w i a.path a.flags a.mode p).2 rfl
    split_ifs at h with h1 h2 h3
    · injection h with h
      exact Or.inr ⟨_, s1, h.symm⟩
    · injection h with h
      exact Or.inr ⟨_, (s1.trans s2).trans (steps_close _ w i _ _ rfl), h.symm⟩
    · injection h with h
      exact Or.inr ⟨_, ((s1.trans s2).trans (steps_trackMax _ _ _)).trans
        (steps_close _ w i _ _ rfl), h.symm⟩
  · rename_i hn
    injection h with h
    exact Or.inl ⟨h.symm, hn⟩

theorem replay_next (w : Env) :
    ∀ (acts : List bun_spawn_request_file_action_t) (i : Nat) (p q : Proc),
      replay w acts i p = .next q → Steps (loopEvent i (i + acts.length)) p q
  | [], i, p, q, h => by
    simp only [replay] at h
    injection h with h
    subst h
    exact Steps.refl _ _
  | a :: rest, i, p, q, h => by
    simp only [replay] at h
    split at h
    · rename_i q1 h1
      have s0 := steps_log (loopEvent i (i + (a :: rest).length)) (.action i) p
        (Or.inr ⟨i, rfl, le_rfl, by simp⟩)
      have s1 : Steps (loopEvent i (i + (a :: rest).length)) (log (.action i) p) q1 :=
        (runAction_next w i a _ q1 h1).mono (fun e he => Or.inl he)
      have s2 : Steps (loopEvent i (i + (a :: rest).length)) q1 q :=
        (replay_next w rest (i + 1) q1 q h).mono (fun e he => by
          rcases he with he | ⟨j, hj, h1, h2⟩
          · exact Or.inl he
          · exact Or.inr ⟨j, hj, by omega, by simp only [List.length_cons]; omega⟩)
      exact (s0.trans s1).trans s2
    · cases h

theorem replay_stop (w : Env) :
    ∀ (acts : List bun_spawn_request_file_action_t) (i : Nat) (p : Proc) (o : Outcome),
      replay w acts i p = .stop o →
      (o = .unreachable ∧ ∃ a ∈ acts, a.type = .None) ∨
        ∃ q, Steps (loopEvent i (i + acts.length)) p q ∧ o = childFailed q
  | [], i, p, o, h => by
    simp only [replay] at h
    cases h
  | a :: rest, i, p, o, h => by
    simp only [replay] at h
    have s0 := steps_log (loopEvent i (i + (a :: rest).length)) (.action i) p
      (Or.inr ⟨i, rfl, le_rfl, by simp⟩)
    split at h
    · rename_i q1 h1
      have s1 : Steps (loopEvent i (i + (a :: rest).length)) (log (.action i) p) q1 :=
        (runAction_next w i a _ q1 h1).mono (fun e he => Or.inl he)
      rcases replay_stop w rest (i + 1) q1 o h with ⟨ho, b, hb, hn⟩ | ⟨q, s2, hq⟩
      · exact Or.inl ⟨ho, b, List.mem_cons_of_mem a hb, hn⟩
      · refine Or.inr ⟨q, (s0.trans s1).trans (s2.mono (fun e he => ?_)), hq⟩
        rcases he with he | ⟨j, hj, h1, h2⟩
        · exact Or.inl he
        · exact Or.inr ⟨j, hj, by omega, by simp only [List.length_cons]; omega⟩
    · rename_i o1 h1
      injection h with h
      subst h
      rcases runAction_stop w i a _ o1 h1 with ⟨ho, hn⟩ | ⟨q, s1, hq⟩
      · exact Or.inl ⟨ho, a, List.mem_cons_self a rest, hn⟩
      · exact Or.inr ⟨q, s0.trans (s1.mono (fun e he => Or.inl he)), hq⟩

theorem replay_append (w : Env) :
    ∀ (xs ys : List bun_spawn_request_file_action_t) (i : Nat) (p : Proc),
      replay w (xs ++ ys) i p =
        match replay w xs i p with
        | .next q => replay w ys (i + xs.length) q
        | .stop o => .stop o
  | [], ys, i, p => by simp [replay]
  | a :: xs, ys, i, p => by
    have ih := replay_append w xs ys (i + 1)
    show replay w (a :: (xs ++ ys)) i p = _
    simp only [replay]
    cases h : runAction w i a (log (.action i) p) with
    | next q =>
      simp only
      rw [ih q]
      have : i + 1 + xs.length = i + (a :: xs).length := by
        simp only [List.length_cons]; omega
      rw [this]
    | stop o => rfl

theorem detach_steps (w : Env) (request : bun_spawn_request_t) (p : Proc) :
    Steps setupEvent p (detach w request p) ∧ (detach w request p).fds = p.fds := by
  unfold detach
  split
  · refine ⟨steps_setsid _ w p (Or.inr (Or.inl rfl)), ?_⟩
    simp only [sys_setsid, log]; split <;> rfl
  · exact ⟨Steps.refl _ _, rfl⟩

theorem childSetup_reach (w : Env) (request : bun_spawn_request_t) (p : Proc) :
    Steps setupEvent p { detach w request (resetSignals w p) with current_max_fd := 0 } :=
  ((steps_sigactions setupEvent w (fun n => Or.inl ⟨n, rfl⟩) (List.range NSIG) p).trans
    (detach_steps w request _).1).trans ⟨rfl, rfl, rfl, fun _ h => Or.inl h⟩

theorem enterDir_next (w : Env) (request : bun_spawn_request_t) (p c : Proc)
    (h : enterDir w request p = .next c) :
    Steps setupEvent p c ∧ c.current_max_fd = p.current_max_fd ∧ c.fds = p.fds := by
  unfold enterDir at h
  split at h
  · rename_i dir hdir
    simp only at h
    split_ifs at h with hc
    injection h with h
    subst h
    refine ⟨steps_chdir _ w dir _ (Or.inr (Or.inr ⟨dir, rfl⟩)), ?_, ?_⟩ <;>
      (simp only [sys_chdir, log]; split <;> rfl)
  · injection h with h
    subst h
    exact ⟨Steps.refl _ _, rfl, rfl⟩

theorem enterDir_stop (w : Env) (request : bun_spawn_request_t) (p : Proc) (o : Outcome)
    (h : enterDir w request p = .stop o) :
    ∃ q dir e, Steps setupEvent p q ∧ o = childFailed q ∧ request.chdir = some dir ∧
      w.chdirErrno dir = some e ∧ q.errno = e := by
  unfold enterDir at h
  split at h
  · rename_i dir hdir
    simp only at h
    split_ifs at h with hc
    injection h with h
    cases he : w.chdirErrno dir with
    | none => simp [sys_chdir, he] at hc
    | some e =>
      refine ⟨_, dir, e, steps_chdir _ w dir _ (Or.inr (Or.inr ⟨dir, rfl⟩)), h.symm, hdir,
        he, ?_⟩
      simp [sys_chdir, he]
  · cases h

theorem childSetup_next (w : Env) (request : bun_spawn_request_t) (p c : Proc)
    (h : childSetup w request p = .next c) :
    Steps setupEvent p c ∧ c.current_max_fd = 0 ∧ c.fds = p.fds := by
  obtain ⟨s, hm, hf⟩ := enterDir_next w request _ c h
  refine ⟨(childSetup_reach w request p).trans s, hm, ?_⟩
  rw [hf]
  show (detach w request (resetSignals w p)).fds = p.fds
  rw [(detach_steps w request _).2]
  exact sigactions_fds w _ p

theorem childSetup_stop (w : Env) (request : bun_spawn_request_t) (p : Proc) (o : Outcome)
    (h : childSetup w request p = .stop o) :
    ∃ q dir e, Steps setupEvent p q ∧ o = childFailed q ∧ request.chdir = some dir ∧
      w.chdirErrno dir = some e ∧ q.errno = e := by
  obtain ⟨q, dir, e, s, ho, hd, he, hq⟩ := enterDir_stop w request _ o h
  exact ⟨q, dir, e, (childSetup_reach w request p).trans s, ho, hd, he, hq⟩

theorem startChild_cases (w : Env) (request : bun_spawn_request_t) (path : Option String)
    (argv : List String) (envp : Option (List String)) (p : Proc) :
    (startChild w request path argv envp p = .unreachable ∧
        ∃ a ∈ request.actions, a.type = .None) ∨
    (∃ q, Steps (childEvent request.actions.length) p q ∧
        startChild w request path argv envp p = childFailed q) ∨
    (∃ c q, childSetup w request p = .next c ∧ replay w request.actions 0 c = .next q ∧
        Steps (childEvent request.actions.length) p q ∧
        startChild w request path argv envp p = execTail w path argv envp p.oldmask q) := by
  cases hs : childSetup w request p with
  | stop o =>
    obtain ⟨q, _, _, s, ho, _⟩ := childSetup_stop w request p o hs
    refine Or.inr (Or.inl ⟨q, s.mono (fun e he => Or.inl he), ?_⟩)
    simp only [startChild, hs, ho]
  | next c =>
    have s1 := (childSetup_next w request p c hs).1
    cases hr : replay w request.actions 0 c with
    | stop o =>
      rcases replay_stop w request.actions 0 c o hr with ⟨ho, hn⟩ | ⟨q, s2, ho⟩
      · refine Or.inl ⟨?_, hn⟩
        simp only [startChild, hs, hr, ho]
      · refine Or.inr (Or.inl ⟨q, (s1.mono (fun e he => Or.inl he)).trans
          (s2.mono (fun e he => ?_)), ?_⟩)
        · rw [Nat.zero_add] at he
          exact Or.inr he
        · simp only [startChild, hs, hr, ho]
    | next q =>
      have s2 := replay_next w request.actions 0 c q hr
      refine Or.inr (Or.inr ⟨c, q, rfl, hr, (s1.mono (fun e he => Or.inl he)).trans
        (s2.mono (fun e he => ?_)), ?_⟩)
      · rw [Nat.zero_add] at he
        exact Or.inr he
      · simp only [startChild, hs, hr]

theorem execTail_proc (w : Env) (path : Option String) (argv : List String)
    (envp : Option (List String)) (mask : SigSet) (p : Proc) :
    ∃ q, (execTail w path argv envp mask p).proc = some q ∧ q.status = p.status ∧
      q.oldmask = p.oldmask ∧ q.cs = p.cs := by
  unfold execTail
  simp only
  split
  · exact ⟨_, rfl, rfl, rfl, rfl⟩
  · exact ⟨_, rfl, rfl, rfl, rfl⟩

theorem startChild_frame (w : Env) (request : bun_spawn_request_t) (path : Option String)
    (argv : List String) (envp : Option (List String)) (p q : Proc)
    (hq : (startChild w request path argv envp p).proc = some q) :
    q.oldmask = p.oldmask ∧ q.cs = p.cs := by
  rcases startChild_cases w request path argv envp p with
    ⟨h, _⟩ | ⟨q0, s, h⟩ | ⟨c, q0, _, _, s, h⟩
  · rw [h] at hq
    cases hq
  · obtain ⟨q1, h1, _, _, ho, hc, _⟩ := childFailed_spec q0
    rw [h, h1] at hq
    injection hq with hq
    subst hq
    exact ⟨ho.trans s.1, hc.trans s.2.1⟩
  · obtain ⟨q1, h1, _, ho, hc⟩ := execTail_proc w path argv envp p.oldmask q0
    rw [h, h1] at hq
    injection hq with hq
    subst hq
    exact ⟨ho.trans s.1, hc.trans s.2.1⟩

theorem startChild_ends (w : Env) (request : bun_spawn_request_t) (path : Option String)
    (argv : List String) (envp : Option (List String)) (p : Proc)
    (ht : ∀ a ∈ request.actions, a.type ≠ .None) :
    ∃ q, (startChild w request path argv envp p).proc = some q := by
  rcases startChild_cases w request path argv envp p with
    ⟨_, a, ha, hn⟩ | ⟨q0, _, h⟩ | ⟨c, q0, _, _, _, h⟩
  · exact absurd hn (ht a ha)
  · obtain ⟨q1, h1, _⟩ := childFailed_spec q0
    exact ⟨q1, by rw [h, h1]; rfl⟩
  · obtain ⟨q1, h1, _⟩ := execTail_proc w path argv envp p.oldmask q0
    exact ⟨q1, by rw [h]; exact h1⟩

theorem enterDir_fail (w : Env) (request : bun_spawn_request_t) (p : Proc) (dir : String)
    (E : Int) (hd : request.chdir = some dir) (he : w.chdirErrno dir = some E) :
    ∃ q, enterDir w request p = .stop (childFailed q) ∧ Steps setupEvent p q ∧
      q.errno = E := by
  refine ⟨(sys_chdir w dir p).2, ?_, steps_chdir _ w dir p (Or.inr (Or.inr ⟨dir, rfl⟩)), ?_⟩
  · simp [enterDir, hd, sys_chdir, he]
  · simp [sys_chdir, he]

theorem setupEvent_kind (e : Event) (h : setupEvent e) :
    e.isFdCall = false ∧ e.isAction = false ∧ e.isExecve = false := by
  rcases h with ⟨n, rfl⟩ | rfl | ⟨d, rfl⟩ <;> exact ⟨rfl, rfl, rfl⟩

/-! ## The parent path -/

theorem proc_eq_none (o : Outcome) : o.proc = none ↔ o = .unreachable := by
  cases o <;> simp [Outcome.proc]

theorem parent_of_child (w : Env) (pid : Option Int) (request : bun_spawn_request_t)
    (argv : List String) (envp : Option (List String)) (hv : w.vfork ≠ -1) (q : Proc)
    (hq : (startChild w request argv.head? argv envp
        (childStart (guard w (entry w)))).proc = some q) :
    ∃ r, posix_spawn_bun w pid request argv envp = some r ∧
      r.child = some (startChild w request argv.head? argv envp
        (childStart (guard w (entry w)))) ∧
      r.parent.status = q.status ∧ r.ret = q.status ∧
      (q.status ≠ 0 → r.pid = pid ∧ r.parent.trace.filter Event.isStorePid = [] ∧
        r.parent.trace.filter Event.isWait4 = [.wait4 w.vfork]) ∧
      (q.status = 0 → r.pid = pid.map (fun _ => w.vfork) ∧
        r.parent.trace.filter Event.isStorePid =
          (if pid.isSome then [.store_pid w.vfork] else []) ∧
        r.parent.trace.filter Event.isWait4 = []) := by
  unfold posix_spawn_bun
  simp only [hv, not_false_eq_true, if_true, ne_eq, hq]
  by_cases hs : q.status = 0
  · simp [hs, guard, entry, log, sys_sigprocmask, sys_setcancelstate, Event.isWait4,
      Event.isStorePid]
    cases pid <;> simp [Event.isWait4, Event.isStorePid] <;>
      (intro a ha; aesop)
  · simp [hs, guard, entry, log, sys_sigprocmask, sys_setcancelstate, Event.isWait4,
      Event.isStorePid]

theorem parent_no_child (w : Env) (pid : Option Int) (request : bun_spawn_request_t)
    (argv : List String) (envp : Option (List String)) (hv : w.vfork = -1) :
    ∃ r, posix_spawn_bun w pid request argv envp = some r ∧
      r.child = none ∧ r.ret = w.vforkErrno ∧ r.pid = pid ∧
      r.parent.trace.filter Event.isStorePid = [] ∧
      r.parent.trace.filter Event.isWait4 = [] := by
  unfold posix_spawn_bun
  simp [hv, guard, entry, log, sys_sigprocmask, sys_setcancelstate, Event.isWait4,
    Event.isStorePid]

theorem parent_none (w : Env) (pid : Option Int) (request : bun_spawn_request_t)
    (argv : List String) (envp : Option (List String)) :
    posix_spawn_bun w pid request argv envp = none ↔
      w.vfork ≠ -1 ∧ (startChild w request argv.head? argv envp
        (childStart (guard w (entry w)))) = .unreachable := by
  by_cases hv : w.vfork = -1
  · obtain ⟨r, hr, _⟩ := parent_no_child w pid request argv envp hv
    simp [hr, hv]
  · cases hp : (startChild w request argv.head? argv envp
        (childStart (guard w (entry w)))).proc with
    | none =>
      have hu := (proc_eq_none _).mp hp
      refine ⟨fun _ => ⟨hv, hu⟩, fun _ => ?_⟩
      unfold posix_spawn_bun
      simp only [hv, not_false_eq_true, if_true, ne_eq, hp]
    | some q =>
      obtain ⟨r, hr, _⟩ := parent_of_child w pid request argv envp hv q hp
      have hu : (startChild w request argv.head? argv envp
        (childStart (guard w (entry w)))) ≠ .unreachable := by
        intro h
        rw [h] at hp
        cases hp
      simp [hr, hu]

theorem startChild_typed (w : Env) (request : bun_spawn_request_t) (path : Option String)
    (argv : List String) (envp : Option (List String)) (p : Proc)
    (ht : ∀ a ∈ request.actions, a.type ≠ .None) :
    startChild w request path argv envp p ≠ .unreachable := by
  obtain ⟨q, hq⟩ := startChild_ends w request path argv envp p ht
  intro h
  rw [h] at hq
  cases hq

/-- C1.  `posix_spawn_bun` returns unless the child it created runs into
`__builtin_unreachable()`, which no list of `Close`, `Dup2` and `Open`
actions causes.  Whenever it returns, with a failing `vfork` setting a
non-zero error code: the result is `0` exactly when `vfork` returned a child
id and the status cell, as the child path `startChild` left it, reads `0`; in
that case the caller's pid slot holds the child id (written once) and `wait4`
is not called; otherwise the slot is unchanged and never written.  When
`vfork` returns `-1` no child runs, the result is its error code and `wait4`
is not called; when the child left a non-zero status cell the result is the
cell's value and `wait4` is called exactly once, on the child. -/
theorem posix_spawn_bun_outcome (w : Env) (pid : Option Int) (request : bun_spawn_request_t)
    (argv : List String) (envp : Option (List String)) (hv : w.vforkErrno ≠ 0) :
    (posix_spawn_bun w pid request argv envp = none ↔
      w.vfork ≠ -1 ∧ (startChild w request argv.head? argv envp
        (childStart (guard w (entry w)))) = .unreachable) ∧
    ((∀ a ∈ request.actions, a.type ≠ .None) → (startChild w request argv.head? argv envp
        (childStart (guard w (entry w)))) ≠ .unreachable) ∧
    ∀ r, posix_spawn_bun w pid request argv envp = some r →
      r.child = (if w.vfork = -1 then none else some (startChild w request argv.head? argv envp
        (childStart (guard w (entry w))))) ∧
      (r.ret = 0 ↔ (w.vfork ≠ -1 ∧ ∃ q, (startChild w request argv.head? argv envp
        (childStart (guard w (entry w)))).proc = some q ∧ q.status = 0)) ∧
      (r.ret = 0 → r.pid = pid.map (fun _ => w.vfork) ∧
        r.parent.trace.filter Event.isStorePid =
          (if pid.isSome then [.store_pid w.vfork] else []) ∧
        r.parent.trace.filter Event.isWait4 = []) ∧
      (r.ret ≠ 0 → r.pid = pid ∧ r.parent.trace.filter Event.isStorePid = []) ∧
      (w.vfork = -1 → r.ret = w.vforkErrno ∧
        r.parent.trace.filter Event.isWait4 = []) ∧
      (w.vfork ≠ -1 → ∀ q, (startChild w request argv.head? argv envp
        (childStart (guard w (entry w)))).proc = some q → q.status ≠ 0 →
        r.ret = q.status ∧ r.parent.trace.filter Event.isWait4 = [.wait4 w.vfork]) := by
  refine ⟨parent_none w pid request argv envp,
    startChild_typed w request argv.head? argv envp _, fun r hr => ?_⟩
  by_cases hc : w.vfork = -1
  · obtain ⟨r1, hr1, h1, h2, h3, h4, h5⟩ := parent_no_child w pid request argv envp hc
    rw [hr1] at hr
    injection hr with hr
    subst hr
    have hne : r1.ret ≠ 0 := by rw [h2]; exact hv
    refine ⟨by rw [h1, if_pos hc], ?_, fun h => absurd h hne, fun _ => ⟨h3, h4⟩,
      fun _ => ⟨h2, h5⟩, fun h => absurd hc h⟩
    exact ⟨fun h => absurd h hne, fun h => absurd hc h.1⟩
  · cases hp : (startChild w request argv.head? argv envp
        (childStart (guard w (entry w)))).proc with
    | none =>
      have := (parent_none w pid request argv envp).mpr ⟨hc, (proc_eq_none _).mp hp⟩
      rw [this] at hr
      cases hr
    | some q =>
      obtain ⟨r1, hr1, h1, _, h2, h3, h4⟩ := parent_of_child w pid request argv envp hc q hp
      rw [hr1] at hr
      injection hr with hr
      subst hr
      refine ⟨by rw [h1, if_neg hc], ?_, ?_, ?_, fun h => absurd h hc, ?_⟩
      · rw [h2]
        constructor
        · intro h
          exact ⟨hc, q, rfl, h⟩
        · rintro ⟨_, q1, hq1, hs⟩
          injection hq1 with hq1
          rw [hq1]
          exact hs
      · intro h
        rw [h2] at h
        exact h4 h
      · intro h
        rw [h2] at h
        exact ⟨(h3 h).1, (h3 h).2.1⟩
      · intro _ q1 hq1 hs
        injection hq1 with hq1
        subst hq1
        exact ⟨h2, (h3 hs).2.2⟩

/-- C1, witness: in `env0` the child of `[OpenInto{target: 1}, Remap{9, 5}]`
fails at index 1 with `EBADF`, descriptor 9 not being open. -/
theorem posix_spawn_bun_outcome_witness :
    env0.vforkErrno ≠ 0 ∧
    ∃ r, posix_spawn_bun env0 (some 0) (requestOf [openAction 1, dup2Action 9 5])
        ["/bin/echo", "hi"] none = some r ∧
      r.ret = 9 ∧
      r.child = (if env0.vfork = -1 then none else some
        (startChild env0 (requestOf [openAction 1, dup2Action 9 5])
          ["/bin/echo", "hi"].head? ["/bin/echo", "hi"] none
          (childStart (guard env0 (entry env0))))) ∧
      (r.ret = 0 ↔ (env0.vfork ≠ -1 ∧ ∃ q,
        (startChild env0 (requestOf [openAction 1, dup2Action 9 5])
          ["/bin/echo", "hi"].head? ["/bin/echo", "hi"] none
          (childStart (guard env0 (entry env0)))).proc = some q ∧ q.status = 0)) ∧
      (r.ret = 0 → r.pid = (some (0 : Int)).map (fun _ => env0.vfork) ∧
        r.parent.trace.filter Event.isStorePid =
          (if (some (0 : Int)).isSome then [.store_pid env0.vfork] else []) ∧
        r.parent.trace.filter Event.isWait4 = []) ∧
      (r.ret ≠ 0 → r.pid = some 0 ∧ r.parent.trace.filter Event.isStorePid = []) ∧
      (env0.vfork = -1 → r.ret = env0.vforkErrno ∧
        r.parent.trace.filter Event.isWait4 = []) ∧
      (env0.vfork ≠ -1 → ∀ q,
        (startChild env0 (requestOf [openAction 1, dup2Action 9 5])
          ["/bin/echo", "hi"].head? ["/bin/echo", "hi"] none
          (childStart (guard env0 (entry env0)))).proc = some q → q.status ≠ 0 →
        r.ret = q.status ∧
        r.parent.trace.filter Event.isWait4 = [.wait4 env0.vfork]) :=
  ⟨by decide, _, rfl, rfl,
    (posix_spawn_bun_outcome env0 (some 0) (requestOf [openAction 1, dup2Action 9 5])
      ["/bin/echo", "hi"] none (by decide)).2.2 _ rfl⟩

/-- C9, as the code has it.  `posix_spawn_bun` returns unless the child it
created runs into `__builtin_unreachable()`, which no list of `Close`, `Dup2`
and `Open` actions causes.  On every path by which it returns (`vfork`
failed, child created with status cell zero or non-zero) the thread's signal
mask and cancellation state are those of entry again.  When `vfork` is called
cancellation is disabled and the mask is the set `sigfillset` produced less
`SIGKILL` and `SIGSTOP`, which `sigprocmask` never blocks; the two restoring
calls are the last two calls of the parent, after `vfork`, and no other call
in between touches the mask or the cancellation state. -/
theorem posix_spawn_bun_guard (w : Env) (pid : Option Int) (request : bun_spawn_request_t)
    (argv : List String) (envp : Option (List String)) :
    (posix_spawn_bun w pid request argv envp = none ↔
      w.vfork ≠ -1 ∧ (startChild w request argv.head? argv envp
        (childStart (guard w (entry w)))) = .unreachable) ∧
    ((∀ a ∈ request.actions, a.type ≠ .None) → (startChild w request argv.head? argv envp
        (childStart (guard w (entry w)))) ≠ .unreachable) ∧
    ∀ r, posix_spawn_bun w pid request argv envp = some r →
      r.atVfork.sigmask = blockable w.fillset ∧
      r.atVfork.cancelstate = PTHREAD_CANCEL_DISABLE ∧
      r.atVfork.trace = [.sigfillset, .sigprocmask w.fillset,
        .pthread_setcancelstate PTHREAD_CANCEL_DISABLE] ∧
      r.parent.sigmask = w.sigmask ∧
      r.parent.cancelstate = w.cancelstate ∧
      ∃ mid, r.parent.trace = r.atVfork.trace ++ [.vfork] ++ mid ++
          [.sigprocmask w.sigmask, .pthread_setcancelstate w.cancelstate] ∧
        ∀ e ∈ mid, e.isGuardCall = false := by
  refine ⟨parent_none w pid request argv envp,
    startChild_typed w request argv.head? argv envp _, fun r hr => ?_⟩
  have hm := w.sigmask_ok
  unfold posix_spawn_bun at hr
  by_cases hc : w.vfork = -1
  · simp only [hc, ne_eq, not_true_eq_false, if_false] at hr
    injection hr with hr
    subst hr
    refine ⟨rfl, rfl, rfl, ?_, rfl, [], ?_, ?_⟩
    · simp [guard, entry, log, sys_sigprocmask, sys_setcancelstate, hm]
    · simp [guard, entry, log, sys_sigprocmask, sys_setcancelstate]
    · simp
  · cases hp : (startChild w request argv.head? argv envp
        (childStart (guard w (entry w)))).proc with
    | none =>
      simp only [hc, not_false_eq_true, if_true, ne_eq, hp] at hr
      cases hr
    | some q =>
      obtain ⟨ho, hcs⟩ := startChild_frame w request argv.head? argv envp _ q hp
      have ho1 : q.oldmask = w.sigmask := ho
      have hc1 : q.cs = w.cancelstate := hcs
      simp only [hc, not_false_eq_true, if_true, ne_eq, hp] at hr
      by_cases hs : q.status = 0
      · simp only [hs, if_true] at hr
        injection hr with hr
        subst hr
        refine ⟨rfl, rfl, rfl, ?_, ?_,
          if pid.isSome then [.store_pid w.vfork] else [], ?_, ?_⟩
        · simp [sys_sigprocmask, sys_setcancelstate, ho1]
          split <;> simp [log, ho1, hm]
        · simp [sys_sigprocmask, sys_setcancelstate, hc1]
          split <;> simp [log, hc1]
        · cases pid <;>
            simp [guard, entry, log, sys_sigprocmask, sys_setcancelstate, ho1, hc1]
        · cases pid <;> simp [Event.isGuardCall]
      · simp only [hs, if_false] at hr
        injection hr with hr
        subst hr
        refine ⟨rfl, rfl, rfl, ?_, ?_, [.wait4 w.vfork], ?_, ?_⟩
        · simp [sys_sigprocmask, sys_setcancelstate, log, ho1, hm]
        · simp [sys_sigprocmask, sys_setcancelstate, log, hc1]
        · simp [guard, entry, log, sys_sigprocmask, sys_setcancelstate, ho1, hc1]
        · simp [Event.isGuardCall]

/-- C9, witness: in `envNoDir` the working directory cannot be entered and
the call returns, the ill-tagged action of the list never being reached. -/
theorem posix_spawn_bun_guard_witness :
    ∃ r, posix_spawn_bun envNoDir none
        { chdir := some "/nonexistent", detached := false, actions := [noneAction] }
        ["/bin/true"] none = some r ∧
      r.ret = 2 ∧
      r.atVfork.sigmask = blockable envNoDir.fillset ∧
      r.atVfork.cancelstate = PTHREAD_CANCEL_DISABLE ∧
      r.atVfork.trace = [.sigfillset, .sigprocmask envNoDir.fillset,
        .pthread_setcancelstate PTHREAD_CANCEL_DISABLE] ∧
      r.parent.sigmask = envNoDir.sigmask ∧
      r.parent.cancelstate = envNoDir.cancelstate ∧
      ∃ mid, r.parent.trace = r.atVfork.trace ++ [.vfork] ++ mid ++
          [.sigprocmask envNoDir.sigmask, .pthread_setcancelstate envNoDir.cancelstate] ∧
        ∀ e ∈ mid, e.isGuardCall = false :=
  ⟨_, rfl, rfl,
    (posix_spawn_bun_guard envNoDir none
      { chdir := some "/nonexistent", detached := false, actions := [noneAction] }
      ["/bin/true"] none).2.2 _ rfl⟩

/-- C9, counterexample: in `env0`, where `sigfillset` writes
`0xfffffffe7fffffff`, the thread's mask when `vfork` is called is
`0xfffffffe7ffbfeff`: `SIGKILL` and `SIGSTOP` are not blocked, and the mask is
not the set that `sigfillset` produced. -/
theorem mask_at_vfork_not_full :
    ∃ r, posix_spawn_bun env0 (some 0) (requestOf []) ["/bin/true"] none = some r ∧
      env0.fillset = 18446744067267100671 ∧
      r.atVfork.sigmask = 18446744067266838271 ∧
      r.atVfork.sigmask ≠ env0.fillset ∧
      (r.atVfork.sigmask / 2 ^ 8) % 2 = 0 ∧ (r.atVfork.sigmask / 2 ^ 18) % 2 = 0 := by
  refine ⟨_, rfl, rfl, ?_, ?_, ?_, ?_⟩ <;> decide

/-- C4.  When a working directory is set and `chdir` fails with a non-zero
error code `E` in the child, the child issues no descriptor call of the
replay loop, enters no loop iteration and never calls `execve`; it stores `E`
in the status cell and exits with status 127; the parent calls `wait4` once,
on the child, returns `E` and does not write the caller's pid slot.  The
action list is arbitrary. -/
theorem chdir_failure (w : Env) (pid : Option Int) (request : bun_spawn_request_t)
    (argv : List String) (envp : Option (List String)) (dir : String) (E : Int)
    (hd : request.chdir = some dir) (he : w.chdirErrno dir = some E) (hE : E ≠ 0)
    (hv : w.vfork ≠ -1) :
    ∃ r q, posix_spawn_bun w pid request argv envp = some r ∧
      r.child = some (.exited 127 q) ∧ q.status = E ∧
      (∀ e ∈ q.trace, e.isFdCall = false ∧ e.isAction = false ∧ e.isExecve = false) ∧
      r.ret = E ∧ r.pid = pid ∧
      r.parent.trace.filter Event.isStorePid = [] ∧
      r.parent.trace.filter Event.isWait4 = [.wait4 w.vfork] := by
  obtain ⟨q0, h0, s0, e0⟩ := enterDir_fail w request
    { detach w request (resetSignals w (childStart (guard w (entry w)))) with
      current_max_fd := 0 } dir E hd he
  have s1 := (childSetup_reach w request (childStart (guard w (entry w)))).trans s0
  obtain ⟨q, hq, hst, _, _, _, htr⟩ := childFailed_spec q0
  have hchild : startChild w request argv.head? argv envp
      (childStart (guard w (entry w))) = .exited 127 q := by
    simp only [startChild, childSetup, h0, hq]
  have hqs : q.status = E := hst.trans e0
  obtain ⟨r, hr, hrc, _, hret, hne, _⟩ := parent_of_child w pid request argv envp hv q
    (by rw [hchild]; rfl)
  have hq0 : q.status ≠ 0 := by rw [hqs]; exact hE
  refine ⟨r, q, hr, by rw [hrc, hchild], hqs, ?_, by rw [hret, hqs], (hne hq0).1,
    (hne hq0).2.1, (hne hq0).2.2⟩
  intro e hmem
  rw [htr, List.mem_append] at hmem
  rcases hmem with hmem | hmem
  · rcases s1.2.2.2 e hmem with h | h
    · exact absurd h (by simp [childStart])
    · exact setupEvent_kind e h
  · simp only [List.mem_cons, List.mem_singleton, List.not_mem_nil, or_false] at hmem
    rcases hmem with rfl | rfl <;> exact ⟨rfl, rfl, rfl⟩

/-- C4, witness: in `envNoDir` the working directory `/nonexistent` cannot
be entered, the action list being non-empty. -/
theorem chdir_failure_witness :
    envNoDir.chdirErrno "/nonexistent" = some 2 ∧ envNoDir.vfork ≠ -1 ∧
    ∃ r q, posix_spawn_bun envNoDir (some 0)
        { chdir := some "/nonexistent", detached := true, actions := [closeAction 0] }
        ["/bin/true"] none = some r ∧
      r.child = some (.exited 127 q) ∧ q.status = 2 ∧
      (∀ e ∈ q.trace, e.isFdCall = false ∧ e.isAction = false ∧ e.isExecve = false) ∧
      r.ret = 2 ∧ r.pid = some 0 ∧
      r.parent.trace.filter Event.isStorePid = [] ∧
      r.parent.trace.filter Event.isWait4 = [.wait4 envNoDir.vfork] :=
  ⟨rfl, by decide,
    chdir_failure envNoDir (some 0)
      { chdir := some "/nonexistent", detached := true, actions := [closeAction 0] }
      ["/bin/true"] none "/nonexistent" 2 rfl rfl (by decide) (by decide)⟩

/-! ## The descriptor calls -/

theorem sys_close_zero (w : Env) (i : Nat) (fd : Int) (p : Proc)
    (h : (sys_close w i fd p).1 = 0) : (sys_close w i fd p).2.errno = p.errno := by
  unfold sys_close at h ⊢
  simp only [log] at h ⊢
  split_ifs at h ⊢ with h1
  · split at h
    · simp_all
    · simp at h
  · simp at h

theorem sys_close_trackMax (w : Env) (i : Nat) (fd x : Int) (p : Proc) :
    (sys_close w i fd (trackMax x p)).1 = (sys_close w i fd p).1 ∧
      (sys_close w i fd (trackMax x p)).2.errno = (sys_close w i fd p).2.errno := by
  simp only [sys_close, log, trackMax]
  split
  · split <;> exact ⟨rfl, rfl⟩
  · exact ⟨rfl, rfl⟩

theorem sys_dup2_ok (w : Env) (a b : Int) (p : Proc)
    (h : (sys_dup2 w a b p).1 ≠ -1) :
    fdOpen w.nofile p.fds a = true ∧ 0 ≤ b ∧ b < (w.nofile : Int) ∧
      (sys_dup2 w a b p).2.fds =
        (if b = a then p.fds else setFd p.fds b ((p.fds a).map dupEntry)) := by
  by_cases h1 : fdOpen w.nofile p.fds a = false
  · simp [sys_dup2, log, h1] at h
  · by_cases h2 : b < 0 ∨ (w.nofile : Int) ≤ b
    · simp [sys_dup2, log, h1, h2] at h
    · refine ⟨by simpa using h1, by omega, by omega, ?_⟩
      by_cases h3 : b = a
      · subst h3
        simp [sys_dup2, log, h1, h2]
      · simp [sys_dup2, log, h1, h2, h3]

/-! ## A failing action -/

theorem runAction_fail (w : Env) (i : Nat) (a : bun_spawn_request_file_action_t)
    (p : Proc) (E : Int) (hk : a.type = .Dup2 ∨ a.type = .Open)
    (hf : actionError w i a p = some E) (hc : cleanupOk w i a p = true) :
    ∃ q, runAction w i a p = .stop (childFailed q) ∧
      Steps (fun e => e.isFdCall = true) p q ∧ q.errno = E := by
  rcases hk with hk | hk
  · simp only [actionError, hk] at hf
    split_ifs at hf with h1
    injection hf with hf
    refine ⟨_, ?_, steps_dup2 _ w a.fds0 a.fds1 p rfl, hf⟩
    simp only [runAction, hk, h1, if_true]
  · simp only [actionError, hk] at hf
    simp only [cleanupOk, hk] at hc
    have s1 := steps_open (fun e => e.isFdCall = true) w i a.path a.flags a.mode p rfl
    have s2 := steps_dup2 (fun e => e.isFdCall = true) w
      (sys_open w i a.path a.flags a.mode p).1 a.fds0
      (sys_open w i a.path a.flags a.mode p).2 rfl
    split_ifs at hf with h1 h2 h3
    · injection hf with hf
      refine ⟨_, ?_, s1, hf⟩
      simp only [runAction, hk, h1, if_true]
    · injection hf with hf
      simp only [h1, h2, if_true, if_false, decide_eq_true_eq] at hc
      refine ⟨_, ?_, (s1.trans s2).trans (steps_close _ w i _ _ rfl),
        (sys_close_zero w i _ _ hc).trans hf⟩
      simp only [runAction, hk, h1, h2, if_true, if_false]
    · injection hf with hf
      obtain ⟨e1, e2⟩ := sys_close_trackMax w i (sys_open w i a.path a.flags a.mode p).1
        a.fds0 (sys_dup2 w (sys_open w i a.path a.flags a.mode p).1 a.fds0
          (sys_open w i a.path a.flags a.mode p).2).2
      refine ⟨_, ?_, ((s1.trans s2).trans (steps_trackMax _ a.fds0 _)).trans
        (steps_close _ w i _ _ rfl), e2.trans hf⟩
      have h3b : (sys_close w i (sys_open w i a.path a.flags a.mode p).1
          (trackMax a.fds0 (sys_dup2 w (sys_open w i a.path a.flags a.mode p).1 a.fds0
            (sys_open w i a.path a.flags a.mode p).2).2)).1 ≠ 0 := by
        rw [e1]
        exact h3
      simp only [runAction, hk, h1, h2, h3b, if_true, if_false, ne_eq, not_false_eq_true]

theorem loopEvent_kind (lo hi : Nat) (e : Event) (h : loopEvent lo hi e) :
    e.isExecve = false ∧ ∀ j, e = .action j → j < hi := by
  rcases h with h | ⟨k, rfl, _, hk⟩
  · cases e <;> simp [Event.isFdCall, Event.isExecve] at h ⊢
  · refine ⟨rfl, fun j hj => ?_⟩
    injection hj with hj
    omega

/-- C2, as the code has it.  If the replay loop reaches index `i` and the
action there is a `Dup2` whose `dup2` fails, or an `Open` whose `open`,
`dup2` or `close` of the temporary fails, with a non-zero error code `E`
(the `close` that follows a failing `dup2` of an `Open` succeeding), then no
iteration with an index above `i` is entered, the child never calls
`execve`, it stores `E` in the status cell and exits with status 127, and the
parent calls `wait4` once, on the child, returns `E` and does not write the
caller's pid slot.  A `Close` action never ends the loop, whatever `close`
returns. -/
theorem action_failure (w : Env) (pid : Option Int) (request : bun_spawn_request_t)
    (argv : List String) (envp : Option (List String))
    (pre post : List bun_spawn_request_file_action_t)
    (a : bun_spawn_request_file_action_t) (c p : Proc) (E : Int)
    (hacts : request.actions = pre ++ a :: post)
    (hsetup : childSetup w request (childStart (guard w (entry w))) = .next c)
    (hreach : replay w pre 0 c = .next p)
    (hkind : a.type = .Dup2 ∨ a.type = .Open)
    (hfail : actionError w pre.length a (log (.action pre.length) p) = some E)
    (hclean : cleanupOk w pre.length a (log (.action pre.length) p) = true)
    (hE : E ≠ 0) (hv : w.vfork ≠ -1) :
    ∃ r q, posix_spawn_bun w pid request argv envp = some r ∧
      r.child = some (.exited 127 q) ∧ q.status = E ∧
      (∀ j, pre.length < j → Event.action j ∉ q.trace) ∧
      (∀ e ∈ q.trace, e.isExecve = false) ∧
      r.ret = E ∧ r.pid = pid ∧
      r.parent.trace.filter Event.isStorePid = [] ∧
      r.parent.trace.filter Event.isWait4 = [.wait4 w.vfork] ∧
      (∀ (i : Nat) (b : bun_spawn_request_file_action_t) (s : Proc), b.type = .Close →
        runAction w i b s = .next (sys_close w i b.fds0 s).2) := by
  obtain ⟨q0, hrun, s3, herr⟩ := runAction_fail w pre.length a _ E hkind hfail hclean
  have s1 := (childSetup_next w request _ c hsetup).1
  have s2 := replay_next w pre 0 c p hreach
  have s2a := steps_log (fun e => e = Event.action pre.length) (.action pre.length) p rfl
  have hloop : replay w request.actions 0 c = .stop (childFailed q0) := by
    rw [hacts, replay_append, hreach]
    simp only [replay, Nat.zero_add, hrun]
  obtain ⟨q, hq, hst, _, _, _, htr⟩ := childFailed_spec q0
  have hchild : startChild w request argv.head? argv envp
      (childStart (guard w (entry w))) = .exited 127 q := by
    simp only [startChild, hsetup, hloop, hq]
  have hqs : q.status = E := hst.trans herr
  obtain ⟨r, hr, hrc, _, hret, hne, _⟩ := parent_of_child w pid request argv envp hv q
    (by rw [hchild]; rfl)
  have hq0 : q.status ≠ 0 := by rw [hqs]; exact hE
  have hev : ∀ e ∈ q.trace, e.isExecve = false ∧ ∀ j, e = .action j → j ≤ pre.length := by
    intro e hmem
    rw [htr, List.mem_append] at hmem
    rcases hmem with hmem | hmem
    · rcases s3.2.2.2 e hmem with h | h
      · rcases s2a.2.2.2 e h with h | h
        · rcases s2.2.2.2 e h with h | h
          · rcases s1.2.2.2 e h with h | h
            · exact absurd h (by simp [childStart])
            · refine ⟨(setupEvent_kind e h).2.2, fun j hj => ?_⟩
              have := (setupEvent_kind e h).2.1
              rw [hj] at this
              cases this
          · have := loopEvent_kind _ _ e h
            exact ⟨this.1, fun j hj => by have := this.2 j hj; omega⟩
        · subst h
          exact ⟨rfl, fun j hj => by injection hj with hj; omega⟩
      · cases e <;> simp [Event.isFdCall, Event.isExecve] at h ⊢
    · simp only [List.mem_cons, List.mem_singleton, List.not_mem_nil, or_false] at hmem
      rcases hmem with rfl | rfl <;> exact ⟨rfl, fun j hj => by cases hj⟩
  refine ⟨r, q, hr, by rw [hrc, hchild], hqs, ?_, fun e he => (hev e he).1,
    by rw [hret, hqs], (hne hq0).1, (hne hq0).2.1, (hne hq0).2.2,
    fun i b s hb => by simp only [runAction, hb]⟩
  intro j hj hmem
  have := (hev _ hmem).2 j rfl
  omega

/-- C2, witness: in `envCloseFails` the second action of
`[Remap{0, 1}, OpenInto{target: 4}, Close{2}]` fails with `EIO`: `open`
returns descriptor 0, `dup2(0, 4)` succeeds, and the `close` of the temporary
reports the error. -/
theorem action_failure_witness :
    ∃ c p, childSetup envCloseFails
        (requestOf [dup2Action 0 1, openAction 4, closeAction 2])
        (childStart (guard envCloseFails (entry envCloseFails))) = .next c ∧
      replay envCloseFails [dup2Action 0 1] 0 c = .next p ∧
      actionError envCloseFails [dup2Action 0 1].length (openAction 4)
        (log (.action [dup2Action 0 1].length) p) = some 5 ∧
      cleanupOk envCloseFails [dup2Action 0 1].length (openAction 4)
        (log (.action [dup2Action 0 1].length) p) = true ∧
      (posix_spawn_bun envCloseFails (some 0)
        (requestOf [dup2Action 0 1, openAction 4, closeAction 2]) ["/bin/true"] none).map
          (fun r => (r.ret, r.pid)) = some (5, some 0) ∧
      ∃ r q, posix_spawn_bun envCloseFails (some 0)
          (requestOf [dup2Action 0 1, openAction 4, closeAction 2]) ["/bin/true"] none
            = some r ∧
        r.child = some (.exited 127 q) ∧ q.status = 5 ∧
        (∀ j, [dup2Action 0 1].length < j → Event.action j ∉ q.trace) ∧
        (∀ e ∈ q.trace, e.isExecve = false) ∧
        r.ret = 5 ∧ r.pid = some 0 ∧
        r.parent.trace.filter Event.isStorePid = [] ∧
        r.parent.trace.filter Event.isWait4 = [.wait4 envCloseFails.vfork] ∧
        (∀ (i : Nat) (b : bun_spawn_request_file_action_t) (s : Proc), b.type = .Close →
          runAction envCloseFails i b s = .next (sys_close envCloseFails i b.fds0 s).2) :=
  ⟨_, _, rfl, rfl, rfl, rfl, rfl,
    action_failure envCloseFails (some 0)
      (requestOf [dup2Action 0 1, openAction 4, closeAction 2])
      ["/bin/true"] none [dup2Action 0 1] [closeAction 2] (openAction 4) _ _ 5
      rfl rfl rfl (Or.inr rfl) rfl rfl (by decide) (by decide)⟩

/-- C2, counterexample: in `env0` the first action of `[Close{7}, Close{0}]`
fails with `EBADF` (descriptor 7 is not open), and yet the iteration for
index 1 is entered, `execve` is called, the status cell stays `0`, and the
parent returns `0`, writes the child id to the pid slot and does not call
`wait4`. -/
theorem close_failure_ignored :
    ∃ c r q,
      childSetup env0 (requestOf [closeAction 7, closeAction 0])
        (childStart (guard env0 (entry env0))) = .next c ∧
      actionError env0 0 (closeAction 7) (log (.action 0) c) = some EBADF ∧
      posix_spawn_bun env0 (some 0) (requestOf [closeAction 7, closeAction 0])
        ["/bin/true"] none = some r ∧
      r.child = some (.execed q) ∧ actionIndices q.trace = [0, 1] ∧
      q.trace.any Event.isExecve = true ∧ q.status = 0 ∧
      r.ret = 0 ∧ r.pid = some 4242 ∧ r.parent.trace.filter Event.isWait4 = [] := by
  refine ⟨_, _, _, rfl, rfl, rfl, rfl, ?_, ?_, rfl, rfl, rfl, ?_⟩ <;> decide

/-- C3, the code at the failing input: in `envNoExec`, with no actions,
`execve` fails with `ENOENT`; the child exits with status 127 and the status
cell still `0`, and the parent returns `0`, publishes the child id and does
not call `wait4`. -/
theorem execve_failure_unreported :
    ∃ r q, posix_spawn_bun envNoExec (some 0) (requestOf []) ["/nonexistent"] none = some r ∧
      r.child = some (.exited 127 q) ∧ q.errno = 2 ∧ q.status = 0 ∧
      q.trace.any Event.isExecve = true ∧
      r.ret = 0 ∧ r.pid = some 4242 ∧ r.parent.trace.filter Event.isWait4 = [] := by
  refine ⟨_, _, rfl, rfl, rfl, rfl, ?_, rfl, rfl, ?_⟩ <;> decide

/-- C6, the code at the failing input: in `env0`, replaying
`[Close{0}, OpenInto{target: 0, ...}]` makes `open` return descriptor 0, the
lowest unused one; `dup2(0, 0)` changes nothing and `close(0)` then closes
the target.  The child reaches `execve` with descriptor 0 closed and the
parent reports success. -/
theorem open_into_lowest_closes_target :
    ∃ r q, posix_spawn_bun env0 (some 0) (requestOf [closeAction 0, openAction 0])
        ["/bin/true"] none = some r ∧
      r.child = some (.execed q) ∧
      q.trace.filter Event.isFdCall =
        [.close 0, .sysOpen "/dev/null" 1 0, .dup2 0 0, .close 0] ∧
      q.fds 0 = none ∧ r.ret = 0 := by
  refine ⟨_, _, rfl, rfl, ?_, rfl, rfl⟩
  decide

/-- C7, the code at the failing input: in `envCloexec5` descriptor 5 is open
with close-on-exec set; replaying `Remap{5, 5}` calls `dup2(5, 5)`, which
succeeds and leaves the flag set, so that descriptor 5 is open when `execve`
is called and closed in the program it starts. -/
theorem self_remap_keeps_cloexec :
    ∃ r q, posix_spawn_bun envCloexec5 (some 0) (requestOf [dup2Action 5 5])
        ["/bin/true"] none = some r ∧
      r.child = some (.execed q) ∧
      q.trace.filter Event.isFdCall = [.dup2 5 5] ∧
      q.fds 5 = some ⟨55, true⟩ ∧ inherited q 5 = none ∧ r.ret = 0 := by
  refine ⟨_, _, rfl, rfl, ?_, rfl, rfl, rfl⟩
  decide

/-! ## The tracked maximum -/

theorem sys_close_max (w : Env) (i : Nat) (fd : Int) (p : Proc) :
    (sys_close w i fd p).2.current_max_fd = p.current_max_fd := by
  simp only [sys_close, log]
  split
  · split <;> rfl
  · rfl

theorem sys_dup2_max (w : Env) (a b : Int) (p : Proc) :
    (sys_dup2 w a b p).2.current_max_fd = p.current_max_fd := by
  simp only [sys_dup2, log]; split_ifs <;> rfl

theorem sys_open_max (w : Env) (i : Nat) (path : String) (flags mode : Int) (p : Proc) :
    (sys_open w i path flags mode p).2.current_max_fd = p.current_max_fd := by
  simp only [sys_open, log]
  split
  · rfl
  · split <;> rfl

theorem runAction_max (w : Env) (i : Nat) (a : bun_spawn_request_file_action_t)
    (p q : Proc) (h : runAction w i a p = .next q)
    (hp : 0 ≤ p.current_max_fd ∧ p.current_max_fd < 2147483647) :
    q.current_max_fd = maxTarget p.current_max_fd [a] ∧
      0 ≤ q.current_max_fd ∧ q.current_max_fd < 2147483647 := by
  have hn := w.nofile_int
  unfold runAction at h
  split at h
  · rename_i hk
    injection h with h
    subst h
    simp only [maxTarget, hk, sys_close_max]
    exact ⟨trivial, hp⟩
  · rename_i hk
    simp only at h
    split_ifs at h with h1 h2
    · injection h with h
      subst h
      obtain ⟨_, hb0, hb1, _⟩ := sys_dup2_ok w a.fds0 a.fds1 p h1
      simp only [maxTarget, hk, trackMax, sys_close_max, sys_dup2_max]
      refine ⟨trivial, le_max_of_le_left hp.1, max_lt hp.2 ?_⟩
      omega
    · injection h with h
      subst h
      obtain ⟨_, hb0, hb1, _⟩ := sys_dup2_ok w a.fds0 a.fds1 p h1
      simp only [maxTarget, hk, trackMax, sys_dup2_max]
      refine ⟨trivial, le_max_of_le_left hp.1, max_lt hp.2 ?_⟩
      omega
  · rename_i hk
    simp only at h
    split_ifs at h with h1 h2 h3
    injection h with h
    subst h
    obtain ⟨_, hb0, hb1, _⟩ := sys_dup2_ok w _ a.fds0 _ h2
    simp only [maxTarget, hk, trackMax, sys_close_max, sys_dup2_max, sys_open_max]
    refine ⟨trivial, le_max_of_le_left hp.1, max_lt hp.2 ?_⟩
    omega
  · cases h

theorem maxTarget_cons (m : Int) (a : bun_spawn_request_file_action_t)
    (rest : List bun_spawn_request_file_action_t) :
    maxTarget m (a :: rest) = maxTarget (maxTarget m [a]) rest := by
  simp only [maxTarget]
  split <;> rfl

theorem replay_max (w : Env) :
    ∀ (acts : List bun_spawn_request_file_action_t) (i : Nat) (p q : Proc),
      replay w acts i p = .next q →
      0 ≤ p.current_max_fd ∧ p.current_max_fd < 2147483647 →
      q.current_max_fd = maxTarget p.current_max_fd acts ∧
        0 ≤ q.current_max_fd ∧ q.current_max_fd < 2147483647
  | [], i, p, q, h, hp => by
    simp only [replay] at h
    injection h with h
    subst h
    exact ⟨rfl, hp⟩
  | a :: rest, i, p, q, h, hp => by
    simp only [replay] at h
    split at h
    · rename_i q1 h1
      obtain ⟨e1, b1⟩ := runAction_max w i a _ q1 h1 hp
      obtain ⟨e2, b2⟩ := replay_max w rest (i + 1) q1 q h b1
      refine ⟨?_, b2⟩
      rw [e2, e1]
      exact (maxTarget_cons _ a rest).symm
    · cases h

theorem le_maxTarget (acts : List bun_spawn_request_file_action_t) :
    ∀ (m : Int), m ≤ maxTarget m acts ∧
      (∀ a ∈ acts, a.type = .Dup2 → a.fds1 ≤ maxTarget m acts) ∧
      (∀ a ∈ acts, a.type = .Open → a.fds0 ≤ maxTarget m acts) := by
  induction acts with
  | nil => intro m; exact ⟨le_rfl, fun _ h => (by cases h), fun _ h => (by cases h)⟩
  | cons b rest ih =>
    intro m
    rw [maxTarget_cons]
    obtain ⟨h0, h1, h2⟩ := ih (maxTarget m [b])
    have hm : m ≤ maxTarget m [b] := by
      simp only [maxTarget]
      split
      · exact le_max_left _ _
      · exact le_max_left _ _
      · exact le_rfl
    refine ⟨hm.trans h0, fun a ha hk => ?_, fun a ha hk => ?_⟩
    · rcases List.mem_cons.mp ha with rfl | ha
      · refine le_trans ?_ h0
        simp only [maxTarget, hk]
        exact le_max_right _ _
      · exact h1 a ha hk
    · rcases List.mem_cons.mp ha with rfl | ha
      · refine le_trans ?_ h0
        simp only [maxTarget, hk]
        exact le_max_right _ _
      · exact h2 a ha hk

theorem maxTarget_close (acts : List bun_spawn_request_file_action_t) (m : Int)
    (h : ∀ a ∈ acts, a.type = .Close) : maxTarget m acts = m := by
  induction acts with
  | nil => rfl
  | cons b rest ih =>
    have hb := h b (List.mem_cons_self b rest)
    simp only [maxTarget, hb]
    exact ih (fun a ha => h a (List.mem_cons_of_mem b ha))

theorem toUnsigned_small (x : Int) (h0 : 0 ≤ x) (h1 : x < 4294967296) :
    toUnsigned x = x.toNat := by
  unfold toUnsigned
  rw [Int.emod_eq_of_lt h0 h1]

theorem childEvent_closeRange (n : Nat) (tr : List Event)
    (h : ∀ e ∈ tr, childEvent n e) : closeRangeArgs tr = [] := by
  unfold closeRangeArgs
  rw [List.filterMap_eq_nil_iff]
  intro e he
  rcases h e he with h | h
  · rcases h with ⟨k, rfl⟩ | rfl | ⟨d, rfl⟩ <;> rfl
  · rcases h with h | ⟨k, rfl, _⟩
    · cases e <;> simp [Event.isFdCall] at h ⊢
    · rfl

theorem execTail_spec (w : Env) (path : Option String) (argv : List String)
    (envp : Option (List String)) (mask : SigSet) (p : Proc) :
    ∃ q tl, (execTail w path argv envp mask p).proc = some q ∧
      q.trace = p.trace ++ [.sigprocmask mask,
        .close_range (toUnsigned (p.current_max_fd + 1)),
        .execve path argv (envp.getD w.environ)] ++ tl ∧
      (tl = [] ∨ tl = [.exit 127]) ∧
      q.fds = (fun x => if ((toUnsigned (p.current_max_fd + 1) : Nat) : Int) ≤ x then none
        else p.fds x) := by
  unfold execTail
  simp only
  split
  · exact ⟨_, [], rfl, by simp [close_range, log, sys_sigprocmask], Or.inl rfl, rfl⟩
  · exact ⟨_, [.exit 127], rfl, by simp [close_range, log, sys_sigprocmask], Or.inr rfl, rfl⟩

/-- What the child does once the replay loop has run to completion: the
state `q2` in which `execve` is called comes from the state `q` after the
loop by one `close_range` whose lower bound is `current_max_fd + 1`, and that
is the only `close_range` of the child. -/
theorem startChild_tail (w : Env) (request : bun_spawn_request_t) (path : Option String)
    (argv : List String) (envp : Option (List String)) (c q : Proc)
    (hsetup : childSetup w request (childStart (guard w (entry w))) = .next c)
    (hloop : replay w request.actions 0 c = .next q) :
    ∃ q2 tl, (startChild w request path argv envp (childStart (guard w (entry w)))).proc
        = some q2 ∧
      q.current_max_fd = maxTarget 0 request.actions ∧
      0 ≤ q.current_max_fd ∧
      q2.trace = q.trace ++ [.sigprocmask w.sigmask,
        .close_range (q.current_max_fd + 1).toNat,
        .execve path argv (envp.getD w.environ)] ++ tl ∧
      (tl = [] ∨ tl = [.exit 127]) ∧
      closeRangeArgs q2.trace = [(q.current_max_fd + 1).toNat] ∧
      q2.fds = (fun x => if q.current_max_fd + 1 ≤ x then none else q.fds x) := by
  obtain ⟨s1, hc0, _⟩ := childSetup_next w request _ c hsetup
  have s2 := replay_next w request.actions 0 c q hloop
  obtain ⟨hmax, h0, h1⟩ := replay_max w request.actions 0 c q hloop
    (by rw [hc0]; exact ⟨le_rfl, by decide⟩)
  rw [hc0] at hmax
  have hu : toUnsigned (q.current_max_fd + 1) = (q.current_max_fd + 1).toNat :=
    toUnsigned_small _ (by omega) (by omega)
  have hcast : (((q.current_max_fd + 1).toNat : Nat) : Int) = q.current_max_fd + 1 :=
    Int.toNat_of_nonneg (by omega)
  obtain ⟨q2, tl, hq2, htr, htl, hfds⟩ := execTail_spec w path argv envp w.sigmask q
  rw [hu] at htr hfds
  rw [hcast] at hfds
  have hchild : startChild w request path argv envp (childStart (guard w (entry w))) =
      execTail w path argv envp w.sigmask q := by
    simp only [startChild, hsetup, hloop]
    rfl
  refine ⟨q2, tl, by rw [hchild]; exact hq2, hmax, h0, htr, htl, ?_, hfds⟩
  have hq : closeRangeArgs q.trace = [] := by
    apply childEvent_closeRange request.actions.length
    intro e he
    rcases s2.2.2.2 e he with h | h
    · rcases s1.2.2.2 e h with h | h
      · exact absurd h (by simp [childStart])
      · exact Or.inl h
    · rw [Nat.zero_add] at h
      exact Or.inr h
  rw [htr]
  unfold closeRangeArgs at hq ⊢
  rw [List.filterMap_append, List.filterMap_append, hq]
  rcases htl with rfl | rfl <;> rfl

/-- C5, as the code has it.  When the replay loop runs to completion, the
child calls `close_range` exactly once, after the loop and right before
`execve`, with the lower bound `M + 1` where `M` is the maximum of `0` and of
the targets of the `Dup2` (`fds[1]`) and `Open` (`fds[0]`) actions; for the
empty list and for a list of `Close` actions only the lower bound is `1`. -/
theorem close_range_lower_bound (w : Env) (request : bun_spawn_request_t)
    (path : Option String) (argv : List String) (envp : Option (List String)) (c q : Proc)
    (hsetup : childSetup w request (childStart (guard w (entry w))) = .next c)
    (hloop : replay w request.actions 0 c = .next q) :
    ∃ (q2 : Proc) (lb : Nat) (tl : List Event),
      (startChild w request path argv envp (childStart (guard w (entry w)))).proc
        = some q2 ∧
      (lb : Int) = maxTarget 0 request.actions + 1 ∧
      q2.trace = q.trace ++ [.sigprocmask w.sigmask, .close_range lb,
        .execve path argv (envp.getD w.environ)] ++ tl ∧
      (tl = [] ∨ tl = [.exit 127]) ∧
      closeRangeArgs q2.trace = [lb] ∧
      ((∀ a ∈ request.actions, a.type = .Close) → lb = 1) := by
  obtain ⟨q2, tl, hq2, hmax, h0, htr, htl, hcr, _⟩ :=
    startChild_tail w request path argv envp c q hsetup hloop
  have hcast : (((q.current_max_fd + 1).toNat : Nat) : Int) = q.current_max_fd + 1 :=
    Int.toNat_of_nonneg (by omega)
  refine ⟨q2, (q.current_max_fd + 1).toNat, tl, hq2, by rw [hcast, hmax], htr, htl, hcr, ?_⟩
  intro hclose
  rw [hmax, maxTarget_close _ _ hclose]
  rfl

/-- C5, witness: `[Remap{0, 7}, Close{1}, OpenInto{target: 4}]` in `env0`. -/
theorem close_range_lower_bound_witness :
    ∃ c q, childSetup env0 (requestOf [dup2Action 0 7, closeAction 1, openAction 4])
        (childStart (guard env0 (entry env0))) = .next c ∧
      replay env0 (requestOf [dup2Action 0 7, closeAction 1, openAction 4]).actions 0 c
        = .next q ∧
      ∃ (q2 : Proc) (lb : Nat) (tl : List Event),
        (startChild env0 (requestOf [dup2Action 0 7, closeAction 1, openAction 4])
          (some "/bin/true") ["/bin/true"] none (childStart (guard env0 (entry env0)))).proc
          = some q2 ∧
        (lb : Int) =
          maxTarget 0 (requestOf [dup2Action 0 7, closeAction 1, openAction 4]).actions + 1 ∧
        q2.trace = q.trace ++ [.sigprocmask env0.sigmask, .close_range lb,
          .execve (some "/bin/true") ["/bin/true"]
            ((none : Option (List String)).getD env0.environ)] ++ tl ∧
        (tl = [] ∨ tl = [.exit 127]) ∧
        closeRangeArgs q2.trace = [lb] ∧
        ((∀ a ∈ (requestOf [dup2Action 0 7, closeAction 1, openAction 4]).actions,
          a.type = .Close) → lb = 1) :=
  ⟨_, _, rfl, rfl,
    close_range_lower_bound env0 (requestOf [dup2Action 0 7, closeAction 1, openAction 4])
      (some "/bin/true") ["/bin/true"] none _ _ rfl rfl⟩

/-- C5, counterexample: for the empty action list in `env0` the child calls
`close_range(1)`, not `close_range(3)` as the maximum taken from `2` would
give, and descriptors 1 and 2, open at entry, are closed when `execve` is
called. -/
theorem empty_list_lower_bound :
    ∃ r q, posix_spawn_bun env0 (some 0) (requestOf []) ["/bin/true"] none = some r ∧
      r.child = some (.execed q) ∧
      closeRangeArgs q.trace = [1] ∧ maxTarget 2 (requestOf []).actions + 1 = 3 ∧
      fdOpen env0.nofile env0.fds 1 = true ∧ fdOpen env0.nofile env0.fds 2 = true ∧
      q.fds 1 = none ∧ q.fds 2 = none := by
  refine ⟨_, _, rfl, rfl, ?_, rfl, rfl, rfl, rfl, rfl⟩
  decide

/-- C10.  When the replay loop runs to completion, the lower bound of the
one `close_range` before `execve` is at least `1` and greater than the target
of every `Dup2` (`fds[1]`) and `Open` (`fds[0]`) action of the list, whatever
their order and whatever `Close` actions there are; the cleanup leaves every
descriptor below the bound as the loop left it, descriptor `0` among them. -/
theorem cleanup_spares_targets (w : Env) (request : bun_spawn_request_t)
    (path : Option String) (argv : List String) (envp : Option (List String)) (c q : Proc)
    (hsetup : childSetup w request (childStart (guard w (entry w))) = .next c)
    (hloop : replay w request.actions 0 c = .next q) :
    ∃ q2 lb, (startChild w request path argv envp (childStart (guard w (entry w)))).proc
        = some q2 ∧
      closeRangeArgs q2.trace = [lb] ∧ 1 ≤ lb ∧
      (∀ a ∈ request.actions, a.type = .Dup2 → a.fds1 < (lb : Int)) ∧
      (∀ a ∈ request.actions, a.type = .Open → a.fds0 < (lb : Int)) ∧
      (∀ fd, fd < (lb : Int) → q2.fds fd = q.fds fd) ∧
      q2.fds 0 = q.fds 0 := by
  obtain ⟨q2, tl, hq2, hmax, h0, _, _, hcr, hfds⟩ :=
    startChild_tail w request path argv envp c q hsetup hloop
  have hcast : (((q.current_max_fd + 1).toNat : Nat) : Int) = q.current_max_fd + 1 :=
    Int.toNat_of_nonneg (by omega)
  obtain ⟨_, h1, h2⟩ := le_maxTarget request.actions 0
  have hkeep : ∀ fd, fd < q.current_max_fd + 1 → q2.fds fd = q.fds fd := by
    intro fd hfd
    rw [hfds]
    simp only
    rw [if_neg (by omega)]
  refine ⟨q2, (q.current_max_fd + 1).toNat, hq2, hcr, by omega, ?_, ?_, ?_, hkeep 0 (by omega)⟩
  · intro a ha hk
    have := h1 a ha hk
    rw [hcast, hmax]
    omega
  · intro a ha hk
    have := h2 a ha hk
    rw [hcast, hmax]
    omega
  · intro fd hfd
    exact hkeep fd (by rw [← hcast]; exact hfd)

/-- C10, witness: `[OpenInto{target: 4}, Close{1}, Remap{0, 7}]` in `env0`. -/
theorem cleanup_spares_targets_witness :
    ∃ c q, childSetup env0 (requestOf [openAction 4, closeAction 1, dup2Action 0 7])
        (childStart (guard env0 (entry env0))) = .next c ∧
      replay env0 (requestOf [openAction 4, closeAction 1, dup2Action 0 7]).actions 0 c
        = .next q ∧
      ∃ q2 lb, (startChild env0
          (requestOf [openAction 4, closeAction 1, dup2Action 0 7]) (some "/bin/true")
          ["/bin/true"] none (childStart (guard env0 (entry env0)))).proc = some q2 ∧
        closeRangeArgs q2.trace = [lb] ∧ 1 ≤ lb ∧
        (∀ a ∈ (requestOf [openAction 4, closeAction 1, dup2Action 0 7]).actions,
          a.type = .Dup2 → a.fds1 < (lb : Int)) ∧
        (∀ a ∈ (requestOf [openAction 4, closeAction 1, dup2Action 0 7]).actions,
          a.type = .Open → a.fds0 < (lb : Int)) ∧
        (∀ fd, fd < (lb : Int) → q2.fds fd = q.fds fd) ∧
        q2.fds 0 = q.fds 0 :=
  ⟨_, _, rfl, rfl,
    cleanup_spares_targets env0 (requestOf [openAction 4, closeAction 1, dup2Action 0 7])
      (some "/bin/true") ["/bin/true"] none _ _ rfl rfl⟩

/-! ## Which descriptors are open after the loop -/

end BunSpawn
